import Mathlib

/-
  Verification of pedrosatotop/surtest: a small web backend with a
  sliding-window rate limiter, input validation against allowlists, an
  LLM brief-generation client with response-shape enforcement and
  telemetry, and an HTTP request handler mapping failures to statuses.

  The Lean definitions below are shallow embeddings of the Python source:
  - src/generator/services/rate_limiter.py  (RateLimiter)
  - src/generator/services/llm.py           (LLMService)
  - src/generator/views.py                  (generate_brief view)

  Timestamps come from Python's time.time(); the rate limiter only ever
  compares differences of timestamps against the window length, so time
  instants and the window length are modelled as integers (an ordered
  additive group of instants); fractional quantities that the code
  actually computes with (telemetry latency and cost) are modelled as
  rationals.
-/

set_option maxHeartbeats 1000000

namespace Surtest

/-! ## Rate limiter (src/generator/services/rate_limiter.py) -/

/-- State of `RateLimiter`: configuration fixed at construction plus the
`requests` map from client identity to its ordered list of timestamps,
modelled as an association list (a missing key reads as the empty list,
mirroring `defaultdict(list)`). -/
structure RLState where
  maxRequests : ℕ
  windowSeconds : ℤ
  requests : List (String × List ℤ)
deriving DecidableEq

/-- Read `self.requests[ip]`; unknown identities give `[]` (defaultdict). -/
def RLState.getList (s : RLState) (ip : String) : List ℤ :=
  (s.requests.lookup ip).getD []

/-- Write an identity's timestamp list back into the association list. -/
def updateAssoc (m : List (String × List ℤ)) (ip : String) (l : List ℤ) :
    List (String × List ℤ) :=
  match m with
  | [] => [(ip, l)]
  | (k, v) :: rest =>
      if k = ip then (ip, l) :: rest else (k, v) :: updateAssoc rest ip l

/-- `self.requests[ip] = l`. -/
def RLState.setList (s : RLState) (ip : String) (l : List ℤ) : RLState :=
  { s with requests := updateAssoc s.requests ip l }

/-- The pruning comprehension used verbatim in both `is_allowed` and
`get_remaining`: keep `req_time` iff `now - req_time < window_seconds`. -/
def prune (now window : ℤ) (l : List ℤ) : List ℤ :=
  l.filter (fun t => decide (now - t < window))

/-- `RateLimiter.is_allowed` (lines 21-45): prune the identity's list,
store the pruned list, deny without recording when the remaining count is
at least `max_requests`, otherwise append `now` and allow. -/
def isAllowed (s : RLState) (ip : String) (now : ℤ) : Bool × RLState :=
  let pruned := prune now s.windowSeconds (s.getList ip)
  let s1 := s.setList ip pruned
  if s.maxRequests ≤ pruned.length then
    (false, s1)
  else
    (true, s1.setList ip (pruned ++ [now]))

/-- `RateLimiter.get_remaining` (lines 47-54): same pruning, store the
pruned list, return `max(0, max_requests - count)`; records nothing. -/
def getRemaining (s : RLState) (ip : String) (now : ℤ) : ℤ × RLState :=
  let pruned := prune now s.windowSeconds (s.getList ip)
  (max 0 ((s.maxRequests : ℤ) - pruned.length), s.setList ip pruned)

/-- Rendering of claim C1's own description of the pruning step, for
comparison with the source: drop exactly the timestamps strictly older
than the instant `now - window_seconds` (keep `t` iff `now - window ≤ t`),
then follow the remainder of the algorithm as the claim states it. -/
def claimIsAllowed (s : RLState) (ip : String) (now : ℤ) : Bool × RLState :=
  let kept := (s.getList ip).filter (fun t => decide (now - s.windowSeconds ≤ t))
  let s1 := s.setList ip kept
  if s.maxRequests ≤ kept.length then
    (false, s1)
  else
    (true, s1.setList ip (kept ++ [now]))

theorem getList_setList (s : RLState) (ip : String) (l : List ℤ) :
    (s.setList ip l).getList ip = l := by
  unfold RLState.setList RLState.getList
  simp only
  induction s.requests with
  | nil => simp [updateAssoc, List.lookup]
  | cons kv rest ih =>
      obtain ⟨k, v⟩ := kv
      by_cases h : k = ip
      · simp [updateAssoc, h, List.lookup]
      · simp only [updateAssoc, if_neg h, List.lookup]
        have hk : (ip == k) = false := by
          simp [beq_iff_eq]
          exact fun hh => h hh.symm
        simp [hk]
        exact ih

theorem getList_setList_ne (s : RLState) (ip j : String) (l : List ℤ)
    (h : j ≠ ip) : (s.setList ip l).getList j = s.getList j := by
  unfold RLState.setList RLState.getList
  simp only
  have hip : (j == ip) = false := by simp [beq_iff_eq, h]
  induction s.requests with
  | nil =>
      simp [updateAssoc, List.lookup, hip]
  | cons kv rest ih =>
      obtain ⟨k, v⟩ := kv
      by_cases hk : k = ip
      · subst hk
        simp [updateAssoc, List.lookup, hip]
      · simp only [updateAssoc, if_neg hk, List.lookup]
        by_cases hj : j = k
        · subst hj
          simp
        · have h1 : (j == k) = false := by simp [beq_iff_eq, hj]
          simp [h1]
          exact ih

theorem setList_maxRequests (s : RLState) (ip : String) (l : List ℤ) :
    (s.setList ip l).maxRequests = s.maxRequests := rfl

theorem setList_windowSeconds (s : RLState) (ip : String) (l : List ℤ) :
    (s.setList ip l).windowSeconds = s.windowSeconds := rfl

theorem isAllowed_false_iff (s : RLState) (ip : String) (now : ℤ) :
    (isAllowed s ip now).1 = false ↔
      s.maxRequests ≤ (prune now s.windowSeconds (s.getList ip)).length := by
  unfold isAllowed
  by_cases h : s.maxRequests ≤ (prune now s.windowSeconds (s.getList ip)).length <;>
    simp [h]

theorem isAllowed_true_iff (s : RLState) (ip : String) (now : ℤ) :
    (isAllowed s ip now).1 = true ↔
      (prune now s.windowSeconds (s.getList ip)).length < s.maxRequests := by
  unfold isAllowed
  by_cases h : s.maxRequests ≤ (prune now s.windowSeconds (s.getList ip)).length <;>
    simp [h] <;> omega

theorem isAllowed_getList (s : RLState) (ip : String) (now : ℤ) :
    (isAllowed s ip now).2.getList ip =
      if s.maxRequests ≤ (prune now s.windowSeconds (s.getList ip)).length then
        prune now s.windowSeconds (s.getList ip)
      else
        prune now s.windowSeconds (s.getList ip) ++ [now] := by
  unfold isAllowed
  by_cases h : s.maxRequests ≤ (prune now s.windowSeconds (s.getList ip)).length <;>
    simp [h, getList_setList]

theorem isAllowed_getList_ne (s : RLState) (ip j : String) (now : ℤ)
    (h : j ≠ ip) : (isAllowed s ip now).2.getList j = s.getList j := by
  unfold isAllowed
  by_cases hc : s.maxRequests ≤ (prune now s.windowSeconds (s.getList ip)).length <;>
    simp [hc, getList_setList_ne _ _ _ _ h]

theorem isAllowed_maxRequests (s : RLState) (ip : String) (now : ℤ) :
    (isAllowed s ip now).2.maxRequests = s.maxRequests := by
  unfold isAllowed
  by_cases h : s.maxRequests ≤ (prune now s.windowSeconds (s.getList ip)).length <;>
    simp [h, setList_maxRequests]

theorem isAllowed_windowSeconds (s : RLState) (ip : String) (now : ℤ) :
    (isAllowed s ip now).2.windowSeconds = s.windowSeconds := by
  unfold isAllowed
  by_cases h : s.maxRequests ≤ (prune now s.windowSeconds (s.getList ip)).length <;>
    simp [h, setList_windowSeconds]

theorem mem_prune (now window : ℤ) (l : List ℤ) (t : ℤ) :
    t ∈ prune now window l ↔ t ∈ l ∧ now - t < window := by
  simp [prune, List.mem_filter]

/-- Claim C1 describes the pruning as dropping exactly the timestamps
strictly older than `now - window_seconds`; the code also drops a
timestamp that is exactly `window_seconds` old (`now - t < window` keeps
strictly-younger timestamps only).  With `max_requests = 1`,
`window_seconds = 10`, a stored timestamp `0` and a call at `now = 10`,
the claim as stated predicts a denial (the boundary timestamp survives
and fills the window) while the code drops it and allows the call. -/
theorem C1_counterexample :
    (isAllowed ⟨1, 10, [("a", [0])]⟩ "a" 10).1 = true ∧
    (claimIsAllowed ⟨1, 10, [("a", [0])]⟩ "a" 10).1 = false ∧
    (isAllowed ⟨1, 10, [("a", [0])]⟩ "a" 10).2.getList "a" = [10] ∧
    (claimIsAllowed ⟨1, 10, [("a", [0])]⟩ "a" 10).2.getList "a" = [0] := by
  decide

/-- C1 (amended): `is_allowed` first drops every stored timestamp that is
at least `window_seconds` old (it keeps `t` iff `now - t < window_seconds`,
so a timestamp exactly at `now - window_seconds` is also dropped); then,
if the count of remaining timestamps is ≥ `max_requests`, it returns
false and appends nothing (the stored list is exactly the pruned list);
otherwise it appends the current time and returns true. -/
theorem C1_is_allowed_prune_append (s : RLState) (ip : String) (now : ℤ) :
    (∀ t, t ∈ prune now s.windowSeconds (s.getList ip) ↔
        t ∈ s.getList ip ∧ now - t < s.windowSeconds) ∧
    ((isAllowed s ip now).1 = false ↔
        s.maxRequests ≤ (prune now s.windowSeconds (s.getList ip)).length) ∧
    (isAllowed s ip now).2.getList ip =
      (if s.maxRequests ≤ (prune now s.windowSeconds (s.getList ip)).length then
        prune now s.windowSeconds (s.getList ip)
      else
        prune now s.windowSeconds (s.getList ip) ++ [now]) := by
  refine ⟨fun t => mem_prune now s.windowSeconds (s.getList ip) t, ?_, ?_⟩
  · exact isAllowed_false_iff s ip now
  · exact isAllowed_getList s ip now

/-- C3: `get_remaining` prunes the identity's list with exactly the same
`prune` applied by `is_allowed`, stores the pruned list without appending
any new timestamp, returns `max(0, max_requests - count)` of the pruned
list, and that result always lies between `0` and `max_requests`. -/
theorem C3_get_remaining_spec (s : RLState) (ip : String) (now : ℤ) :
    (getRemaining s ip now).2 =
      s.setList ip (prune now s.windowSeconds (s.getList ip)) ∧
    (getRemaining s ip now).2.getList ip =
      prune now s.windowSeconds (s.getList ip) ∧
    (getRemaining s ip now).1 =
      max 0 ((s.maxRequests : ℤ) -
        (prune now s.windowSeconds (s.getList ip)).length) ∧
    0 ≤ (getRemaining s ip now).1 ∧
    (getRemaining s ip now).1 ≤ (s.maxRequests : ℤ) := by
  refine ⟨rfl, getList_setList _ _ _, rfl, le_max_left _ _, ?_⟩
  have h : ((s.maxRequests : ℤ) -
      (prune now s.windowSeconds (s.getList ip)).length) ≤ (s.maxRequests : ℤ) := by
    omega
  exact max_le (by positivity) h

/-- Run a sequence of `is_allowed` calls for one identity at the given
times, collecting the returned booleans and the final state. -/
def runTimes : RLState → String → List ℤ → List Bool × RLState
  | s, _, [] => ([], s)
  | s, ip, t :: ts =>
      let r := isAllowed s ip t
      let rest := runTimes r.2 ip ts
      (r.1 :: rest.1, rest.2)

/-- Cascade of the pruning filters applied by successive calls. -/
def foldPrune (w : ℤ) (ts : List ℤ) (l : List ℤ) : List ℤ :=
  ts.foldl (fun acc u => prune u w acc) l

theorem foldPrune_cons (w u : ℤ) (ts l : List ℤ) :
    foldPrune w (u :: ts) l = foldPrune w ts (prune u w l) := rfl

theorem prune_append (u w : ℤ) (a b : List ℤ) :
    prune u w (a ++ b) = prune u w a ++ prune u w b := by
  simp [prune, List.filter_append]

theorem foldPrune_append (w : ℤ) (ts : List ℤ) :
    ∀ a b : List ℤ, foldPrune w ts (a ++ b) =
      foldPrune w ts a ++ foldPrune w ts b := by
  induction ts with
  | nil => intro a b; rfl
  | cons u ts ih =>
      intro a b
      rw [foldPrune_cons, prune_append, ih, foldPrune_cons, foldPrune_cons]

theorem prune_singleton_kept (u w t : ℤ) (h : u - t < w) :
    prune u w [t] = [t] := by
  simp [prune, h]

theorem foldPrune_singleton_kept (w t : ℤ) (ts : List ℤ)
    (h : ∀ u ∈ ts, u - t < w) : foldPrune w ts [t] = [t] := by
  induction ts with
  | nil => rfl
  | cons u ts ih =>
      rw [foldPrune_cons, prune_singleton_kept u w t (h u (by simp))]
      exact ih (fun v hv => h v (by simp [hv]))

theorem prune_eq_self (u w : ℤ) (l : List ℤ) (h : ∀ x ∈ l, u - x < w) :
    prune u w l = l := by
  apply List.filter_eq_self.mpr
  intro x hx
  simpa using h x hx

theorem runTimes_append (s : RLState) (ip : String) (a b : List ℤ) :
    runTimes s ip (a ++ b) =
      ((runTimes s ip a).1 ++ (runTimes (runTimes s ip a).2 ip b).1,
       (runTimes (runTimes s ip a).2 ip b).2) := by
  induction a generalizing s with
  | nil => simp [runTimes]
  | cons u a ih => simp [runTimes, ih]

/-- After a run of `is_allowed` calls that were all allowed, and whose
times pairwise differ by less than the window, the stored list is the
cascaded pruning of the initial list followed by all the call times, and
the configuration is untouched. -/
theorem runTimes_all_true_getList (ts : List ℤ) :
    ∀ (s : RLState) (ip : String),
      (∀ x ∈ ts, ∀ y ∈ ts, x - y < s.windowSeconds) →
      (∀ b ∈ (runTimes s ip ts).1, b = true) →
      (runTimes s ip ts).2.getList ip =
        foldPrune s.windowSeconds ts (s.getList ip) ++ ts ∧
      (runTimes s ip ts).2.maxRequests = s.maxRequests ∧
      (runTimes s ip ts).2.windowSeconds = s.windowSeconds := by
  induction ts with
  | nil => intro s ip _ _; simp [runTimes, foldPrune]
  | cons u ts ih =>
      intro s ip hpair hall
      have hshape : runTimes s ip (u :: ts) =
          ((isAllowed s ip u).1 :: (runTimes (isAllowed s ip u).2 ip ts).1,
           (runTimes (isAllowed s ip u).2 ip ts).2) := rfl
      have hu : (isAllowed s ip u).1 = true := by
        apply hall
        rw [hshape]
        simp
      have hcnt : (prune u s.windowSeconds (s.getList ip)).length < s.maxRequests :=
        (isAllowed_true_iff s ip u).mp hu
      have hnotle : ¬ s.maxRequests ≤ (prune u s.windowSeconds (s.getList ip)).length := by
        omega
      have hS1 : (isAllowed s ip u).2.getList ip =
          prune u s.windowSeconds (s.getList ip) ++ [u] := by
        rw [isAllowed_getList, if_neg hnotle]
      have hmax1 := isAllowed_maxRequests s ip u
      have hwin1 := isAllowed_windowSeconds s ip u
      have hrest : ∀ b ∈ (runTimes (isAllowed s ip u).2 ip ts).1, b = true := by
        intro b hb
        apply hall
        rw [hshape]
        simp [hb]
      have hpair' : ∀ x ∈ ts, ∀ y ∈ ts,
          x - y < (isAllowed s ip u).2.windowSeconds := by
        intro x hx y hy
        rw [hwin1]
        exact hpair x (by simp [hx]) y (by simp [hy])
      obtain ⟨hlist, hmax2, hwin2⟩ := ih (isAllowed s ip u).2 ip hpair' hrest
      refine ⟨?_, ?_, ?_⟩
      · rw [hshape]
        simp only
        rw [hlist, hS1, hwin1, foldPrune_append,
          foldPrune_singleton_kept s.windowSeconds u ts
            (fun v hv => hpair v (by simp [hv]) u (by simp)),
          foldPrune_cons]
        simp
      · rw [hshape]; simp only; rw [hmax2, hmax1]
      · rw [hshape]; simp only; rw [hwin2, hwin1]

/-- When exactly `max_requests` calls are all allowed within a window,
the final stored list is exactly the list of those call times. -/
theorem runTimes_full_getList (s : RLState) (ip : String) (ts : List ℤ)
    (hpair : ∀ x ∈ ts, ∀ y ∈ ts, x - y < s.windowSeconds)
    (hall : ∀ b ∈ (runTimes s ip ts).1, b = true)
    (hlen : ts.length = s.maxRequests) (hne : ts ≠ []) :
    (runTimes s ip ts).2.getList ip = ts ∧
    (runTimes s ip ts).2.maxRequests = s.maxRequests ∧
    (runTimes s ip ts).2.windowSeconds = s.windowSeconds := by
  rcases List.eq_nil_or_concat ts with h | ⟨ts', tm, rfl⟩
  · exact absurd h hne
  clear hne
  rw [List.concat_eq_append] at hpair hall hlen ⊢
  have happ := runTimes_append s ip ts' [tm]
  have hpair' : ∀ x ∈ ts', ∀ y ∈ ts', x - y < s.windowSeconds := by
    intro x hx y hy
    exact hpair x (by simp [hx]) y (by simp [hy])
  have hall' : ∀ b ∈ (runTimes s ip ts').1, b = true := by
    intro b hb
    apply hall
    rw [happ]
    simp [hb]
  obtain ⟨hlist', hmax', hwin'⟩ := runTimes_all_true_getList ts' s ip hpair' hall'
  set S' := (runTimes s ip ts').2 with hS'
  have htm : (isAllowed S' ip tm).1 = true := by
    apply hall
    rw [happ]
    have : (runTimes S' ip [tm]).1 = [(isAllowed S' ip tm).1] := rfl
    rw [this]
    simp
  have hcnt : (prune tm S'.windowSeconds (S'.getList ip)).length < S'.maxRequests :=
    (isAllowed_true_iff S' ip tm).mp htm
  have hts'_kept : prune tm s.windowSeconds ts' = ts' := by
    apply prune_eq_self
    intro x hx
    exact hpair tm (by simp) x (by simp [hx])
  have hsplit : prune tm S'.windowSeconds (S'.getList ip) =
      prune tm s.windowSeconds (foldPrune s.windowSeconds ts' (s.getList ip)) ++ ts' := by
    rw [hwin', hlist', prune_append, hts'_kept]
  have hF0 : prune tm s.windowSeconds (foldPrune s.windowSeconds ts' (s.getList ip)) = [] := by
    rw [hsplit, hmax'] at hcnt
    simp only [List.length_append] at hcnt
    have hlen' : ts'.length + 1 = s.maxRequests := by
      simpa using hlen
    have : (prune tm s.windowSeconds (foldPrune s.windowSeconds ts' (s.getList ip))).length = 0 := by
      omega
    exact List.length_eq_zero.mp this
  have hpruned : prune tm S'.windowSeconds (S'.getList ip) = ts' := by
    rw [hsplit, hF0]
    simp
  have hfin : runTimes s ip (ts' ++ [tm]) =
      ((runTimes s ip (ts' ++ [tm])).1, (isAllowed S' ip tm).2) := by
    rw [happ]
    rfl
  have hnotle : ¬ S'.maxRequests ≤ (prune tm S'.windowSeconds (S'.getList ip)).length := by
    omega
  refine ⟨?_, ?_, ?_⟩
  · rw [hfin]
    simp only
    rw [isAllowed_getList, if_neg hnotle, hpruned]
  · rw [hfin]
    simp only
    rw [isAllowed_maxRequests, hmax']
  · rw [hfin]
    simp only
    rw [isAllowed_windowSeconds, hwin']

/-- C2: for any identity, if `max_requests` calls to `is_allowed` all
return true, every call time lying within less than `window_seconds` of
the oldest one, then a further call made within `window_seconds` of the
oldest recorded call is denied; and a subsequent call made once more
than `window_seconds` has elapsed since the oldest recorded timestamp is
allowed again (one unit of capacity has freed up). -/
theorem C2_deny_then_recover (s : RLState) (ip : String) (t1 : ℤ)
    (rest : List ℤ) (t t' : ℤ)
    (hlen : (t1 :: rest).length = s.maxRequests)
    (hmin : ∀ x ∈ t1 :: rest, t1 ≤ x)
    (hspan : ∀ x ∈ t1 :: rest, x - t1 < s.windowSeconds)
    (hall : ∀ b ∈ (runTimes s ip (t1 :: rest)).1, b = true)
    (hnext : ∀ x ∈ t1 :: rest, x ≤ t)
    (ht : t - t1 < s.windowSeconds)
    (ht' : t ≤ t')
    (hT : s.windowSeconds < t' - t1) :
    (isAllowed (runTimes s ip (t1 :: rest)).2 ip t).1 = false ∧
    (isAllowed (isAllowed (runTimes s ip (t1 :: rest)).2 ip t).2 ip t').1 = true := by
  have hpair : ∀ x ∈ t1 :: rest, ∀ y ∈ t1 :: rest, x - y < s.windowSeconds := by
    intro x hx y hy
    have h1 := hspan x hx
    have h2 := hmin y hy
    omega
  obtain ⟨hlist, hmax, hwin⟩ :=
    runTimes_full_getList s ip (t1 :: rest) hpair hall hlen (by simp)
  set S := (runTimes s ip (t1 :: rest)).2 with hS
  have hkeep : prune t S.windowSeconds (S.getList ip) = t1 :: rest := by
    rw [hlist, hwin]
    apply prune_eq_self
    intro x hx
    have := hmin x hx
    omega
  have hdeny : (isAllowed S ip t).1 = false := by
    rw [isAllowed_false_iff, hkeep, hmax]
    simp [← hlen]
  have hle : S.maxRequests ≤ (prune t S.windowSeconds (S.getList ip)).length := by
    rw [hkeep, hmax, ← hlen]
  have hS2list : (isAllowed S ip t).2.getList ip = t1 :: rest := by
    rw [isAllowed_getList, if_pos hle, hkeep]
  have hS2max := isAllowed_maxRequests S ip t
  have hS2win := isAllowed_windowSeconds S ip t
  refine ⟨hdeny, ?_⟩
  rw [isAllowed_true_iff, hS2list, hS2win, hS2max, hwin, hmax]
  have hdrop : prune t' s.windowSeconds (t1 :: rest) = prune t' s.windowSeconds rest := by
    have hnokeep : ¬ (t' - t1 < s.windowSeconds) := by omega
    simp [prune, List.filter, hnokeep]
  rw [hdrop]
  have hle2 : (prune t' s.windowSeconds rest).length ≤ rest.length :=
    List.length_filter_le _ _
  have : rest.length + 1 = s.maxRequests := by simpa using hlen
  omega

/-- Concrete instance of C2: with `max_requests = 2`, `window_seconds =
10` and a fresh identity, allowed calls at times 0 and 1 are followed by
a denial at time 5 and a renewed allowance at time 11. -/
theorem C2_deny_then_recover_witness :
    ([(0 : ℤ), 1].length = (⟨2, 10, []⟩ : RLState).maxRequests) ∧
    ((5 : ℤ) - 0 < (⟨2, 10, []⟩ : RLState).windowSeconds) ∧
    ((5 : ℤ) ≤ 11) ∧
    ((⟨2, 10, []⟩ : RLState).windowSeconds < (11 : ℤ) - 0) ∧
    (isAllowed (runTimes ⟨2, 10, []⟩ "a" [0, 1]).2 "a" 5).1 = false ∧
    (isAllowed (isAllowed (runTimes ⟨2, 10, []⟩ "a" [0, 1]).2 "a" 5).2 "a" 11).1 = true := by
  refine ⟨by decide, by decide, by decide, by decide, ?_⟩
  exact C2_deny_then_recover ⟨2, 10, []⟩ "a" 0 [1] 5 11 (by decide) (by decide)
    (by decide) (by decide) (by decide) (by decide) (by decide) (by decide)

/-- One recorded operation of the rate limiter. -/
inductive RLCall where
  | allowedCall (ip : String) (now : ℤ)
  | remainingCall (ip : String) (now : ℤ)
deriving DecidableEq

/-- The identity an operation touches. -/
def RLCall.ident : RLCall → String
  | .allowedCall ip _ => ip
  | .remainingCall ip _ => ip

/-- The current time passed to an operation. -/
def RLCall.time : RLCall → ℤ
  | .allowedCall _ now => now
  | .remainingCall _ now => now

/-- Apply one operation to the state, discarding the returned value. -/
def stepCall (s : RLState) : RLCall → RLState
  | .allowedCall ip now => (isAllowed s ip now).2
  | .remainingCall ip now => (getRemaining s ip now).2

/-- Apply a sequence of operations in order. -/
def runCalls (s : RLState) (cs : List RLCall) : RLState := cs.foldl stepCall s

theorem getRemaining_getList (s : RLState) (ip : String) (now : ℤ) :
    (getRemaining s ip now).2.getList ip =
      prune now s.windowSeconds (s.getList ip) :=
  getList_setList _ _ _

theorem getRemaining_getList_ne (s : RLState) (ip j : String) (now : ℤ)
    (h : j ≠ ip) : (getRemaining s ip now).2.getList j = s.getList j :=
  getList_setList_ne _ _ _ _ h

theorem stepCall_maxRequests (s : RLState) (c : RLCall) :
    (stepCall s c).maxRequests = s.maxRequests := by
  cases c with
  | allowedCall ip now => exact isAllowed_maxRequests s ip now
  | remainingCall ip now => rfl

theorem stepCall_windowSeconds (s : RLState) (c : RLCall) :
    (stepCall s c).windowSeconds = s.windowSeconds := by
  cases c with
  | allowedCall ip now => exact isAllowed_windowSeconds s ip now
  | remainingCall ip now => rfl

theorem prune_length_le (now window : ℤ) (l : List ℤ) :
    (prune now window l).length ≤ l.length :=
  List.length_filter_le _ _

/-- One operation keeps every identity's list length at or below
`max_requests` if that already held. -/
theorem stepCall_length_invariant (s : RLState) (c : RLCall)
    (h : ∀ j, (s.getList j).length ≤ s.maxRequests) :
    ∀ j, ((stepCall s c).getList j).length ≤ s.maxRequests := by
  intro j
  cases c with
  | allowedCall ip now =>
      by_cases hj : j = ip
      · subst hj
        rw [show stepCall s (RLCall.allowedCall j now) = (isAllowed s j now).2 from rfl,
          isAllowed_getList]
        by_cases hle : s.maxRequests ≤ (prune now s.windowSeconds (s.getList j)).length
        · rw [if_pos hle]
          exact le_trans (prune_length_le _ _ _) (h j)
        · rw [if_neg hle]
          simp only [List.length_append, List.length_singleton]
          omega
      · rw [show stepCall s (RLCall.allowedCall ip now) = (isAllowed s ip now).2 from rfl,
          isAllowed_getList_ne s ip j now hj]
        exact h j
  | remainingCall ip now =>
      by_cases hj : j = ip
      · subst hj
        rw [show stepCall s (RLCall.remainingCall j now) = (getRemaining s j now).2 from rfl,
          getRemaining_getList]
        exact le_trans (prune_length_le _ _ _) (h j)
      · rw [show stepCall s (RLCall.remainingCall ip now) = (getRemaining s ip now).2 from rfl,
          getRemaining_getList_ne s ip j now hj]
        exact h j

theorem runCalls_maxRequests (cs : List RLCall) :
    ∀ s : RLState, (runCalls s cs).maxRequests = s.maxRequests := by
  induction cs with
  | nil => intro s; rfl
  | cons c cs ih =>
      intro s
      rw [show runCalls s (c :: cs) = runCalls (stepCall s c) cs from rfl, ih,
        stepCall_maxRequests]

theorem runCalls_windowSeconds (cs : List RLCall) :
    ∀ s : RLState, (runCalls s cs).windowSeconds = s.windowSeconds := by
  induction cs with
  | nil => intro s; rfl
  | cons c cs ih =>
      intro s
      rw [show runCalls s (c :: cs) = runCalls (stepCall s c) cs from rfl, ih,
        stepCall_windowSeconds]

theorem runCalls_length_invariant (cs : List RLCall) :
    ∀ s : RLState, (∀ j, (s.getList j).length ≤ s.maxRequests) →
      ∀ j, ((runCalls s cs).getList j).length ≤ s.maxRequests := by
  induction cs with
  | nil => intro s h j; exact h j
  | cons c cs ih =>
      intro s h j
      rw [show runCalls s (c :: cs) = runCalls (stepCall s c) cs from rfl]
      have hstep : ∀ j, ((stepCall s c).getList j).length ≤ (stepCall s c).maxRequests := by
        intro j'
        rw [stepCall_maxRequests]
        exact stepCall_length_invariant s c h j'
      have := ih (stepCall s c) hstep j
      rwa [stepCall_maxRequests] at this


/-- Immediately after one operation, every retained timestamp of the
touched identity is strictly within the window of the operation's time
(for this the window must be positive, as the configuration demands). -/
theorem stepCall_fresh (s : RLState) (c : RLCall) (hw : 0 < s.windowSeconds) :
    ∀ x ∈ (stepCall s c).getList c.ident, c.time - x < s.windowSeconds := by
  cases c with
  | allowedCall ip now =>
      intro x hx
      rw [show stepCall s (RLCall.allowedCall ip now) = (isAllowed s ip now).2 from rfl,
        show (RLCall.allowedCall ip now).ident = ip from rfl,
        isAllowed_getList] at hx
      by_cases hle : s.maxRequests ≤ (prune now s.windowSeconds (s.getList ip)).length
      · rw [if_pos hle] at hx
        exact ((mem_prune _ _ _ _).mp hx).2
      · rw [if_neg hle] at hx
        rcases List.mem_append.mp hx with h | h
        · exact ((mem_prune _ _ _ _).mp h).2
        · have hxe : x = now := by simpa using h
          have htime : (RLCall.allowedCall ip now).time = now := rfl
          rw [htime, hxe]
          simpa using hw
  | remainingCall ip now =>
      intro x hx
      rw [show stepCall s (RLCall.remainingCall ip now) = (getRemaining s ip now).2 from rfl,
        show (RLCall.remainingCall ip now).ident = ip from rfl,
        getRemaining_getList] at hx
      exact ((mem_prune _ _ _ _).mp hx).2

theorem runCalls_append (s : RLState) (a b : List RLCall) :
    runCalls s (a ++ b) = runCalls (runCalls s a) b :=
  List.foldl_append _ _ _ _

/-- C9: starting from a freshly constructed limiter, under sequential
execution with a nondecreasing clock and a positive window, after any
sequence of `is_allowed` and `get_remaining` operations every identity's
stored list has length at most `max_requests`; and immediately after any
operation, every timestamp retained for the touched identity is strictly
within `window_seconds` of that operation's current time. -/
theorem C9_bounded_and_fresh (s0 : RLState) (calls : List RLCall)
    (h0 : s0.requests = [])
    (hw : 0 < s0.windowSeconds)
    (hclock : List.Chain' (fun a b => RLCall.time a ≤ RLCall.time b) calls) :
    (∀ ip, ((runCalls s0 calls).getList ip).length ≤ s0.maxRequests) ∧
    (∀ pre c post, calls = pre ++ c :: post →
      ∀ x ∈ (runCalls s0 (pre ++ [c])).getList c.ident,
        c.time - x < s0.windowSeconds) := by
  constructor
  · apply runCalls_length_invariant
    intro j
    simp [RLState.getList, h0, List.lookup]
  · intro pre c post _ x hx
    rw [runCalls_append] at hx
    have hone : runCalls (runCalls s0 pre) [c] = stepCall (runCalls s0 pre) c := rfl
    rw [hone] at hx
    have hw' : 0 < (runCalls s0 pre).windowSeconds := by
      rw [runCalls_windowSeconds]; exact hw
    have := stepCall_fresh (runCalls s0 pre) c hw' x hx
    rwa [runCalls_windowSeconds] at this

/-- Concrete instance of C9: a fresh limiter with `max_requests = 2` and
`window_seconds = 10`, run through an `is_allowed`, a `get_remaining`
and another `is_allowed` on identity "a", stores at most 2 timestamps
for "a". -/
theorem C9_bounded_and_fresh_witness :
    (⟨2, 10, []⟩ : RLState).requests = [] ∧
    (0 : ℤ) < (⟨2, 10, []⟩ : RLState).windowSeconds ∧
    List.Chain' (fun a b => RLCall.time a ≤ RLCall.time b)
      [RLCall.allowedCall "a" 0, RLCall.remainingCall "a" 1,
       RLCall.allowedCall "a" 3] ∧
    ((runCalls ⟨2, 10, []⟩
      [RLCall.allowedCall "a" 0, RLCall.remainingCall "a" 1,
       RLCall.allowedCall "a" 3]).getList "a").length ≤
      (⟨2, 10, []⟩ : RLState).maxRequests :=
  ⟨rfl, by decide,
    List.Chain.cons (by decide) (List.Chain.cons (by decide) List.Chain.nil),
    (C9_bounded_and_fresh ⟨2, 10, []⟩
      [RLCall.allowedCall "a" 0, RLCall.remainingCall "a" 1,
       RLCall.allowedCall "a" 3] rfl (by decide)
      (List.Chain.cons (by decide) (List.Chain.cons (by decide) List.Chain.nil))).1 "a"⟩

/-! ## Input validation (src/generator/services/llm.py, LLMService) -/

/-- Python `str.strip()`: drop leading and trailing whitespace.
Implemented over the character list so that it evaluates in the kernel. -/
def pyStrip (s : String) : String :=
  ⟨((s.data.dropWhile Char.isWhitespace).reverse.dropWhile Char.isWhitespace).reverse⟩

/-- Python `str.lower()` (the profanity set is empty, so this value is
never actually consulted by a reachable branch). -/
def pyLower (s : String) : String := ⟨s.data.map Char.toLower⟩

/-- Does the first list occur as a leading segment of the second? -/
def charsStartWith : List Char → List Char → Bool
  | [], _ => true
  | _ :: _, [] => false
  | c :: cs, d :: ds => c == d && charsStartWith cs ds

/-- Does the first list occur contiguously inside the second? -/
def occursIn (needle : List Char) : List Char → Bool
  | [] => needle.isEmpty
  | c :: rest => charsStartWith needle (c :: rest) || occursIn needle rest

/-- Python substring containment `needle in hay` on strings. -/
def strContains (hay needle : String) : Bool := occursIn needle.data hay.data

/-- `LLMService.ALLOWED_PLATFORMS` (llm.py line 15). -/
def ALLOWED_PLATFORMS : List String := ["Instagram", "TikTok", "UGC"]

/-- `LLMService.ALLOWED_GOALS` (llm.py line 16). -/
def ALLOWED_GOALS : List String := ["Awareness", "Conversions", "Content Assets"]

/-- `LLMService.ALLOWED_TONES` (llm.py line 17). -/
def ALLOWED_TONES : List String := ["Professional", "Friendly", "Playful"]

/-- `LLMService.PROFANITY_WORDS` (llm.py lines 20-22): the braces hold
only a comment, so the shipped collection is empty. -/
def PROFANITY_WORDS : List String := []

/-- `LLMService.validate_inputs` (llm.py lines 31-66).  The Python guard
`not brand_name or not brand_name.strip()` is equivalent to the stripped
brand name being empty. -/
def validate_inputs (brand_name platform goal tone : String) :
    Bool × Option String :=
  if pyStrip brand_name = "" then (false, some "Brand name is required")
  else if (pyStrip brand_name).length < 2 then
    (false, some "Brand name must be at least 2 characters")
  else if 100 < (pyStrip brand_name).length then
    (false, some "Brand name must be less than 100 characters")
  else if PROFANITY_WORDS.any
      (fun word => strContains (pyLower (pyStrip brand_name)) word) then
    (false, some "Brand name contains inappropriate content")
  else if platform ∉ ALLOWED_PLATFORMS then
    (false, some ("Platform must be one of: " ++
      String.intercalate ", " ALLOWED_PLATFORMS))
  else if goal ∉ ALLOWED_GOALS then
    (false, some ("Goal must be one of: " ++
      String.intercalate ", " ALLOWED_GOALS))
  else if tone ∉ ALLOWED_TONES then
    (false, some ("Tone must be one of: " ++
      String.intercalate ", " ALLOWED_TONES))
  else (true, none)

/-- Rendering of claim C6's fixed check order: the seven checks, in the
claimed order, each paired with its failure message. -/
def c6Checks (brand_name platform goal tone : String) : List (Bool × String) :=
  [(pyStrip brand_name == "", "Brand name is required"),
   (decide ((pyStrip brand_name).length < 2),
     "Brand name must be at least 2 characters"),
   (decide (100 < (pyStrip brand_name).length),
     "Brand name must be less than 100 characters"),
   (PROFANITY_WORDS.any
      (fun word => strContains (pyLower (pyStrip brand_name)) word),
     "Brand name contains inappropriate content"),
   (!decide (platform ∈ ALLOWED_PLATFORMS),
     "Platform must be one of: " ++ String.intercalate ", " ALLOWED_PLATFORMS),
   (!decide (goal ∈ ALLOWED_GOALS),
     "Goal must be one of: " ++ String.intercalate ", " ALLOWED_GOALS),
   (!decide (tone ∈ ALLOWED_TONES),
     "Tone must be one of: " ++ String.intercalate ", " ALLOWED_TONES)]

/-- The first failing check's message, short-circuiting. -/
def firstFailure : List (Bool × String) → Option String
  | [] => none
  | (bad, msg) :: rest => if bad then some msg else firstFailure rest

/-- C6: `validate_inputs` returns the message of the first failing check
in the fixed claimed order (empty brand, minimum length, maximum length,
profanity, platform, goal, tone) and `(true, none)` when every check
passes; on the brand-name boundaries it rejects trimmed lengths 0, 1 and
101 with the three quoted messages and accepts trimmed lengths 2 and
100. -/
theorem C6_ordered_checks (b p g t : String) :
    (validate_inputs b p g t =
      match firstFailure (c6Checks b p g t) with
      | some msg => (false, some msg)
      | none => (true, none)) ∧
    validate_inputs "" "Instagram" "Awareness" "Professional" =
      (false, some "Brand name is required") ∧
    validate_inputs "a" "Instagram" "Awareness" "Professional" =
      (false, some "Brand name must be at least 2 characters") ∧
    validate_inputs (String.mk (List.replicate 101 'a'))
        "Instagram" "Awareness" "Professional" =
      (false, some "Brand name must be less than 100 characters") ∧
    validate_inputs "ab" "Instagram" "Awareness" "Professional" =
      (true, none) ∧
    validate_inputs (String.mk (List.replicate 100 'a'))
        "Instagram" "Awareness" "Professional" =
      (true, none) := by
  refine ⟨?_, by decide, by decide, by decide, by decide, by decide⟩
  by_cases h1 : pyStrip b = ""
  · simp [validate_inputs, c6Checks, firstFailure, h1]
  · by_cases h2 : (pyStrip b).length < 2
    · simp [validate_inputs, c6Checks, firstFailure, h1, h2]
    · by_cases h3 : 100 < (pyStrip b).length
      · simp [validate_inputs, c6Checks, firstFailure, h1, h2, h3]
      · by_cases h5 : p ∈ ALLOWED_PLATFORMS
        · by_cases h6 : g ∈ ALLOWED_GOALS
          · by_cases h7 : t ∈ ALLOWED_TONES
            · simp [validate_inputs, c6Checks, firstFailure, h1, h2, h3, h5,
                h6, h7, PROFANITY_WORDS]
            · simp [validate_inputs, c6Checks, firstFailure, h1, h2, h3, h5,
                h6, h7, PROFANITY_WORDS]
          · simp [validate_inputs, c6Checks, firstFailure, h1, h2, h3, h5,
              h6, PROFANITY_WORDS]
        · simp [validate_inputs, c6Checks, firstFailure, h1, h2, h3, h5,
            PROFANITY_WORDS]

/-- C10: the profanity-rejection branch is unreachable — with the shipped
(empty) profanity term set, `validate_inputs` never produces the message
"Brand name contains inappropriate content". -/
theorem C10_profanity_branch_unreachable (b p g t : String) :
    (validate_inputs b p g t).2 ≠
      some "Brand name contains inappropriate content" := by
  unfold validate_inputs
  split_ifs with h1 h2 h3 h4 h5 h6 h7 <;>
    (try simp [PROFANITY_WORDS] at h4) <;> decide

/-! ## Brief generation (src/generator/services/llm.py, generate_brief)

`generate_brief` issues one provider call inside a `try` block.  The
shallow embedding takes the provider interaction as an input value: the
provider either raises (network error, non-2xx, timeout — any exception
from the client call) or returns a message whose body has already been
handed to `json.loads`, together with the usage report.  The JSON value
is modelled to the depth the code inspects: the top-level object's
fields, whether a field's value is a list, and the list's items. -/

/-- An element of a parsed JSON array (the code never inspects items, so
only the distinction needed by claim C4 — string or not — is kept). -/
inductive JItem where
  | istr (s : String)
  | inum (n : ℤ)
  | iother
deriving DecidableEq

/-- A field value of the parsed top-level JSON object. -/
inductive JVal where
  | vstr (s : String)
  | vnum (n : ℤ)
  | varr (items : List JItem)
  | vother
deriving DecidableEq

/-- Rendering of claim C4's phrase "string-like item". -/
def JItem.isStringLike : JItem → Bool
  | .istr _ => true
  | _ => false

/-- Outcome of `json.loads(content)` on the provider's message body. -/
inductive ParsedBody where
  | parseError (msg : String)
  | parsed (result : List (String × JVal))
deriving DecidableEq

/-- The provider's token usage report (`response.usage`). -/
structure Usage where
  total_tokens : ℕ
  prompt_tokens : ℕ
  completion_tokens : ℕ
deriving DecidableEq

/-- Outcome of the `self.client.chat.completions.create(...)` call. -/
inductive ProviderCall where
  | failure (msg : String)
  | success (body : ParsedBody) (usage : Usage)
deriving DecidableEq

/-- The two exception classes `generate_brief` can let escape:
`ValueError` (parse failures, re-raised at llm.py line 143) and
`RuntimeError` (the catch-all wrap at llm.py line 145). -/
inductive PyErr where
  | valueError (msg : String)
  | runtimeError (msg : String)
deriving DecidableEq

/-- Round-half-to-even on a rational, as Python's built-in `round`. -/
def roundHalfEven (q : ℚ) : ℤ :=
  if q - ⌊q⌋ < 1/2 then ⌊q⌋
  else if 1/2 < q - ⌊q⌋ then ⌊q⌋ + 1
  else if 2 ∣ ⌊q⌋ then ⌊q⌋ else ⌊q⌋ + 1

/-- Python `round(q, ndigits)`. -/
def pyRound (q : ℚ) (ndigits : ℕ) : ℚ :=
  (roundHalfEven (q * 10 ^ ndigits) : ℚ) / 10 ^ ndigits

/-- The `telemetry` dictionary built at llm.py lines 133-139. -/
structure Telemetry where
  latency_ms : ℚ
  tokens_total : ℕ
  tokens_prompt : ℕ
  tokens_completion : ℕ
  estimated_cost_usd : ℚ
deriving DecidableEq

/-- The success dictionary returned by `generate_brief` (llm.py 129-140). -/
structure BriefResult where
  brief : JVal
  angles : List JItem
  criteria : List JItem
  telemetry : Telemetry
deriving DecidableEq

/-- `result["angles"]` / `result["criteria"]` viewed through
`isinstance(·, list)`: the items when the value is a list. -/
def JVal.asList : JVal → Option (List JItem)
  | .varr items => some items
  | _ => none

/-- Python `key in result` on the parsed top-level object. -/
def hasKey (result : List (String × JVal)) (k : String) : Bool :=
  (result.lookup k).isSome

/-- `LLMService.generate_brief` (llm.py lines 68-145) as a function of
the provider interaction and the wall-clock readings at start
(`start_time`, line 75) and at the telemetry computation (line 124).

Exception flow of the source: a raising provider call or any exception
raised inside the `try` body other than `json.JSONDecodeError` — which
includes the three shape-validation `ValueError`s of lines 113-121 — is
caught by the blanket `except Exception` (line 144) and re-raised as
`RuntimeError("LLM service error: " + str(e))`; only
`json.JSONDecodeError` from `json.loads` is re-raised as a `ValueError`
(line 143). -/
def generate_brief (call : ProviderCall) (startT endT : ℚ) :
    Except PyErr BriefResult :=
  match call with
  | .failure msg => .error (.runtimeError ("LLM service error: " ++ msg))
  | .success body usage =>
    match body with
    | .parseError msg =>
        .error (.valueError ("Failed to parse LLM response as JSON: " ++ msg))
    | .parsed result =>
        if ¬ (hasKey result "brief" ∧ hasKey result "angles" ∧
            hasKey result "criteria") then
          .error (.runtimeError
            ("LLM service error: " ++ "Invalid response structure from LLM"))
        else
          match ((result.lookup "angles").getD .vother).asList with
          | none => .error (.runtimeError
              ("LLM service error: " ++ "Angles must be an array of exactly 3 items"))
          | some angles =>
            if angles.length ≠ 3 then
              .error (.runtimeError
                ("LLM service error: " ++ "Angles must be an array of exactly 3 items"))
            else
              match ((result.lookup "criteria").getD .vother).asList with
              | none => .error (.runtimeError
                  ("LLM service error: " ++ "Criteria must be an array of exactly 3 items"))
              | some criteria =>
                if criteria.length ≠ 3 then
                  .error (.runtimeError
                    ("LLM service error: " ++ "Criteria must be an array of exactly 3 items"))
                else
                  .ok
                    { brief := (result.lookup "brief").getD .vother
                      angles := angles
                      criteria := criteria
                      telemetry :=
                        { latency_ms := pyRound ((endT - startT) * 1000) 2
                          tokens_total := usage.total_tokens
                          tokens_prompt := usage.prompt_tokens
                          tokens_completion := usage.completion_tokens
                          estimated_cost_usd := pyRound
                            (((usage.prompt_tokens : ℚ) * 0.15 +
                              (usage.completion_tokens : ℚ) * 0.60) / 1000000) 6 } }

/-! ## Request handler (src/generator/views.py, generate_brief view) -/

/-- The four fields read from the parsed JSON body with
`data.get(key, '')`: an absent field defaults to the empty string.
(Bodies carrying non-string field values would make `.strip()` raise and
are outside this model.) -/
structure RequestData where
  brand_name : Option String
  platform : Option String
  goal : Option String
  tone : Option String
deriving DecidableEq

/-- The HTTP response, reduced to what the claims consult: status code,
the `error` field, and on success the generation result together with
`rate_limit.remaining`. -/
structure HttpResponse where
  status : ℕ
  error : Option String
  payload : Option (BriefResult × ℤ)
deriving DecidableEq

/-- The `generate_brief` view (views.py lines 28-101) as a function of
the rate-limiter state, the client identity, the parsed request body
(`none` models `json.loads(request.body)` raising), the provider
interaction, and the wall-clock readings: `now1` at the `is_allowed`
gate, `startT`/`endT` inside the service call, `now2` at the
`get_remaining` call for the success payload.  The view's trailing
`except Exception` (catch-all 500) is unreachable here because
`LLMService.generate_brief` only lets `ValueError` and `RuntimeError`
escape. -/
def generate_brief_view (s : RLState) (ip : String) (now1 : ℤ)
    (body : Option RequestData) (provider : ProviderCall)
    (startT endT : ℚ) (now2 : ℤ) : HttpResponse × RLState :=
  let gate := isAllowed s ip now1
  if gate.1 = false then
    ({ status := 429,
       error := some "Rate limit exceeded. Please try again later.",
       payload := none }, gate.2)
  else
    match body with
    | none =>
        ({ status := 400, error := some "Invalid JSON in request body",
           payload := none }, gate.2)
    | some data =>
        let v := validate_inputs (pyStrip (data.brand_name.getD ""))
          (pyStrip (data.platform.getD "")) (pyStrip (data.goal.getD ""))
          (pyStrip (data.tone.getD ""))
        if v.1 = false then
          ({ status := 400, error := v.2, payload := none }, gate.2)
        else
          match generate_brief provider startT endT with
          | .ok result =>
              let rem := getRemaining gate.2 ip now2
              ({ status := 200, error := none,
                 payload := some (result, rem.1) }, rem.2)
          | .error (.valueError msg) =>
              ({ status := 400, error := some ("Validation error: " ++ msg),
                 payload := none }, gate.2)
          | .error (.runtimeError msg) =>
              ({ status := 500, error := some ("Service error: " ++ msg),
                 payload := none }, gate.2)

/-- A parsed provider response whose `angles` and `criteria` are
3-element arrays of numbers — none of the items is string-like. -/
def numericItemsResponse : List (String × JVal) :=
  [("brief", .vstr "b"),
   ("angles", .varr [.inum 1, .inum 2, .inum 3]),
   ("criteria", .varr [.inum 4, .inum 5, .inum 6])]

/-- Claim C4 requires the items of `angles` and `criteria` to be
string-like for generation to succeed; the code only checks
`isinstance(·, list)` and the length, so a response whose angles and
criteria hold 3 numbers each is accepted, contradicting the claim that
generation fails on it. -/
theorem C4_counterexample :
    (generate_brief (.success (.parsed numericItemsResponse) ⟨30, 10, 20⟩)
      0 1).toOption.isSome = true ∧
    ([JItem.inum 1, JItem.inum 2, JItem.inum 3].all JItem.isStringLike) = false := by
  exact ⟨rfl, rfl⟩

/-- Rendering of amended claim C4's acceptance condition: the three keys
are present and `angles` and `criteria` are lists of exactly 3 items
(their types are not inspected). -/
def shapeOk (result : List (String × JVal)) : Bool :=
  hasKey result "brief" && hasKey result "angles" && hasKey result "criteria" &&
  (match ((result.lookup "angles").getD .vother).asList with
   | some xs => xs.length == 3
   | none => false) &&
  (match ((result.lookup "criteria").getD .vother).asList with
   | some xs => xs.length == 3
   | none => false)

/-- C4 (amended): for every provider response parsed as a JSON object,
generation succeeds exactly when the object has the keys "brief",
"angles", "criteria" and both "angles" and "criteria" are lists of
exactly 3 items — item types are not checked; in particular a response
whose angles list has a length other than 3 (for example 2 or 4) makes
generation fail with the error naming that violation, never a silently
truncated or padded result. -/
theorem C4_shape_enforcement (result : List (String × JVal)) (usage : Usage)
    (startT endT : ℚ) :
    ((generate_brief (.success (.parsed result) usage) startT
        endT).toOption.isSome = shapeOk result) ∧
    (∀ xs, result.lookup "angles" = some (.varr xs) → xs.length ≠ 3 →
      hasKey result "brief" = true → hasKey result "criteria" = true →
      generate_brief (.success (.parsed result) usage) startT endT =
        .error (.runtimeError
          "LLM service error: Angles must be an array of exactly 3 items")) := by
  constructor
  · show (generate_brief (.success (.parsed result) usage) startT
        endT).toOption.isSome = shapeOk result
    simp only [generate_brief, shapeOk]
    by_cases hk : (hasKey result "brief" ∧ hasKey result "angles" ∧
        hasKey result "criteria")
    · rw [if_neg (not_not_intro hk)]
      obtain ⟨hk1, hk2, hk3⟩ := hk
      rw [hk1, hk2, hk3]
      simp only [Bool.true_and]
      rcases ha : ((result.lookup "angles").getD .vother).asList with _ | xs
      · simp [ha, Except.toOption]
      · simp only [ha]
        by_cases hlen : xs.length = 3
        · rw [if_neg (not_not_intro hlen)]
          rcases hc : ((result.lookup "criteria").getD .vother).asList with _ | ys
          · simp [hc, Except.toOption]
          · simp only [hc]
            by_cases hlc : ys.length = 3
            · rw [if_neg (not_not_intro hlc)]
              simp [hlen, hlc, Except.toOption]
            · rw [if_pos hlc]
              simp [hlen, hlc, Except.toOption]
        · rw [if_pos hlen]
          simp [hlen, Except.toOption]
    · rw [if_pos hk]
      simp only [Except.toOption, Option.isSome]
      rw [not_and_or, not_and_or] at hk
      rcases hk with h | h | h <;> simp [Bool.not_eq_true] at h <;> simp [h]
  · intro xs hxs hlen hkb hkc
    have hka : hasKey result "angles" = true := by
      simp [hasKey, hxs]
    simp only [generate_brief]
    rw [if_neg (not_not_intro ⟨hkb, hka, hkc⟩), hxs]
    simp only [Option.getD, JVal.asList]
    rw [if_pos hlen]
    rfl

/-- Concrete instance of C4: a response whose angles array has 2 items is
rejected with the error naming the angles-length violation. -/
theorem C4_shape_enforcement_witness :
    ([("brief", JVal.vstr "b"),
      ("angles", JVal.varr [JItem.istr "a", JItem.istr "b"]),
      ("criteria", JVal.varr [JItem.istr "x", JItem.istr "y", JItem.istr "z"])].lookup
        "angles" = some (JVal.varr [JItem.istr "a", JItem.istr "b"])) ∧
    ([JItem.istr "a", JItem.istr "b"].length ≠ 3) ∧
    generate_brief (.success (.parsed
      [("brief", JVal.vstr "b"),
       ("angles", JVal.varr [JItem.istr "a", JItem.istr "b"]),
       ("criteria", JVal.varr [JItem.istr "x", JItem.istr "y", JItem.istr "z"])])
      ⟨30, 10, 20⟩) 0 1 =
      .error (.runtimeError
        "LLM service error: Angles must be an array of exactly 3 items") :=
  ⟨rfl, by decide,
    (C4_shape_enforcement _ ⟨30, 10, 20⟩ 0 1).2 _ rfl (by decide) rfl rfl⟩

/-- A well-formed request body: trimmed, allowlisted values. -/
def acmeBody : RequestData :=
  ⟨some "Acme", some "Instagram", some "Awareness", some "Friendly"⟩

/-- Claim C5 says LLM response-shape failures surface as HTTP 400
"validation error" and that provider failures surface as a ServiceError
distinct from shape errors.  In the code the shape `ValueError`s raised
at llm.py lines 113-121 are swallowed by the blanket `except Exception`
at line 144 and re-raised as `RuntimeError`, which the view maps to HTTP
500 "Service error" — the same class and status as a provider failure.
This theorem evaluates the view at the failing input (a response whose
angles array has 2 items): the response is 500, not 400, and carries the
same "Service error" prefix as a network failure; only the JSON-parse
failure is mapped to 400 "Validation error". -/
theorem C5_error_mapping_at_failing_input :
    (generate_brief_view ⟨5, 60, []⟩ "1.2.3.4" 0 (some acmeBody)
      (.success (.parsed
        [("brief", JVal.vstr "b"),
         ("angles", JVal.varr [JItem.istr "a", JItem.istr "b"]),
         ("criteria", JVal.varr [JItem.istr "x", JItem.istr "y", JItem.istr "z"])])
        ⟨30, 10, 20⟩) 0 1 1).1 =
      { status := 500,
        error := some
          "Service error: LLM service error: Angles must be an array of exactly 3 items",
        payload := none } ∧
    (generate_brief_view ⟨5, 60, []⟩ "1.2.3.4" 0 (some acmeBody)
      (.failure "Connection error.") 0 1 1).1 =
      { status := 500,
        error := some "Service error: LLM service error: Connection error.",
        payload := none } ∧
    (generate_brief_view ⟨5, 60, []⟩ "1.2.3.4" 0 (some acmeBody)
      (.success (.parseError "Expecting value: line 1 column 1 (char 0)")
        ⟨0, 0, 0⟩) 0 1 1).1 =
      { status := 400,
        error := some
          "Validation error: Failed to parse LLM response as JSON: Expecting value: line 1 column 1 (char 0)",
        payload := none } := by
  exact ⟨rfl, rfl, rfl⟩

/-- C7: for every platform, goal or tone value outside its allowlist
(with the earlier checks passing: a trimmed brand name of valid length,
and for the later fields the earlier allowlists passed), `validate_inputs`
returns invalid with the message naming the comma-joined allowed set, and
the view answers HTTP 400 carrying exactly that message. -/
theorem C7_allowlist_rejection (b p g t : String) (s : RLState) (ip : String)
    (now1 : ℤ) (provider : ProviderCall) (startT endT : ℚ) (now2 : ℤ)
    (hb0 : pyStrip b = b) (hp0 : pyStrip p = p) (hg0 : pyStrip g = g)
    (ht0 : pyStrip t = t)
    (hb1 : b ≠ "") (hb2 : 2 ≤ b.length) (hb3 : b.length ≤ 100)
    (hgate : (isAllowed s ip now1).1 = true) :
    (p ∉ ALLOWED_PLATFORMS →
      validate_inputs b p g t = (false, some ("Platform must be one of: " ++
        String.intercalate ", " ALLOWED_PLATFORMS)) ∧
      (generate_brief_view s ip now1 (some ⟨some b, some p, some g, some t⟩)
        provider startT endT now2).1 =
        { status := 400, error := some ("Platform must be one of: " ++
            String.intercalate ", " ALLOWED_PLATFORMS), payload := none }) ∧
    (p ∈ ALLOWED_PLATFORMS → g ∉ ALLOWED_GOALS →
      validate_inputs b p g t = (false, some ("Goal must be one of: " ++
        String.intercalate ", " ALLOWED_GOALS)) ∧
      (generate_brief_view s ip now1 (some ⟨some b, some p, some g, some t⟩)
        provider startT endT now2).1 =
        { status := 400, error := some ("Goal must be one of: " ++
            String.intercalate ", " ALLOWED_GOALS), payload := none }) ∧
    (p ∈ ALLOWED_PLATFORMS → g ∈ ALLOWED_GOALS → t ∉ ALLOWED_TONES →
      validate_inputs b p g t = (false, some ("Tone must be one of: " ++
        String.intercalate ", " ALLOWED_TONES)) ∧
      (generate_brief_view s ip now1 (some ⟨some b, some p, some g, some t⟩)
        provider startT endT now2).1 =
        { status := 400, error := some ("Tone must be one of: " ++
            String.intercalate ", " ALLOWED_TONES), payload := none }) := by
  have h1 : ¬ (pyStrip b = "") := by rw [hb0]; exact hb1
  have h2 : ¬ ((pyStrip b).length < 2) := by rw [hb0]; omega
  have h3 : ¬ (100 < (pyStrip b).length) := by rw [hb0]; omega
  have h4 : ¬ (PROFANITY_WORDS.any
      (fun word => strContains (pyLower (pyStrip b)) word) = true) := by
    simp [PROFANITY_WORDS]
  have hview : ∀ msg : String, validate_inputs b p g t = (false, some msg) →
      (generate_brief_view s ip now1 (some ⟨some b, some p, some g, some t⟩)
        provider startT endT now2).1 =
        { status := 400, error := some msg, payload := none } := by
    intro msg hv
    simp only [generate_brief_view, hgate, Option.getD, hb0, hp0, hg0, ht0, hv]
    simp
  refine ⟨?_, ?_, ?_⟩
  · intro hplat
    have hv : validate_inputs b p g t = (false, some ("Platform must be one of: " ++
        String.intercalate ", " ALLOWED_PLATFORMS)) := by
      unfold validate_inputs
      rw [if_neg h1, if_neg h2, if_neg h3, if_neg h4, if_pos hplat]
    exact ⟨hv, hview _ hv⟩
  · intro hplat hgoal
    have hv : validate_inputs b p g t = (false, some ("Goal must be one of: " ++
        String.intercalate ", " ALLOWED_GOALS)) := by
      unfold validate_inputs
      rw [if_neg h1, if_neg h2, if_neg h3, if_neg h4,
        if_neg (not_not_intro hplat), if_pos hgoal]
    exact ⟨hv, hview _ hv⟩
  · intro hplat hgoal htone
    have hv : validate_inputs b p g t = (false, some ("Tone must be one of: " ++
        String.intercalate ", " ALLOWED_TONES)) := by
      unfold validate_inputs
      rw [if_neg h1, if_neg h2, if_neg h3, if_neg h4,
        if_neg (not_not_intro hplat), if_neg (not_not_intro hgoal),
        if_pos htone]
    exact ⟨hv, hview _ hv⟩

/-- Concrete instance of C7: platform "Snapchat" is rejected with the
message naming the allowed platforms and the view answers 400 with it. -/
theorem C7_allowlist_rejection_witness :
    pyStrip "Acme" = "Acme" ∧ ("Acme" : String) ≠ "" ∧
    2 ≤ ("Acme" : String).length ∧ ("Acme" : String).length ≤ 100 ∧
    (isAllowed ⟨5, 60, []⟩ "1.2.3.4" 0).1 = true ∧
    validate_inputs "Acme" "Snapchat" "Awareness" "Friendly" =
      (false, some ("Platform must be one of: " ++
        String.intercalate ", " ALLOWED_PLATFORMS)) ∧
    (generate_brief_view ⟨5, 60, []⟩ "1.2.3.4" 0
      (some ⟨some "Acme", some "Snapchat", some "Awareness", some "Friendly"⟩)
      (.failure "unused") 0 1 1).1 =
      { status := 400, error := some ("Platform must be one of: " ++
          String.intercalate ", " ALLOWED_PLATFORMS), payload := none } := by
  refine ⟨by decide, by decide, by decide, by decide, by decide, ?_⟩
  exact (C7_allowlist_rejection "Acme" "Snapchat" "Awareness" "Friendly"
    ⟨5, 60, []⟩ "1.2.3.4" 0 (.failure "unused") 0 1 1
    (by decide) (by decide) (by decide) (by decide)
    (by decide) (by decide) (by decide) (by decide)).1 (by decide)

theorem roundHalfEven_nonneg (q : ℚ) (h : 0 ≤ q) : 0 ≤ roundHalfEven q := by
  unfold roundHalfEven
  have hf : (0 : ℤ) ≤ ⌊q⌋ := Int.floor_nonneg.mpr h
  split_ifs <;> omega

theorem pyRound_nonneg (q : ℚ) (n : ℕ) (h : 0 ≤ q) : 0 ≤ pyRound q n := by
  unfold pyRound
  apply div_nonneg
  · exact_mod_cast roundHalfEven_nonneg _ (by positivity)
  · positivity

/-- C8: on a successful generation, the telemetry's latency is the
measured wall-clock difference in milliseconds rounded to 2 decimals
(nonnegative whenever the clock did not run backwards between the two
readings), the three token counts are taken verbatim from the provider's
usage report, the estimated cost is prompt tokens times the fixed
per-prompt-token price plus completion tokens times the fixed
per-completion-token price rounded to 6 decimals, and whenever the usage
report is internally consistent the returned totals satisfy
`tokens_total = tokens_prompt + tokens_completion`. -/
theorem C8_telemetry (result : List (String × JVal)) (usage : Usage)
    (startT endT : ℚ) (b : BriefResult)
    (hok : generate_brief (.success (.parsed result) usage) startT endT = .ok b) :
    b.telemetry.latency_ms = pyRound ((endT - startT) * 1000) 2 ∧
    (startT ≤ endT → 0 ≤ b.telemetry.latency_ms) ∧
    b.telemetry.tokens_total = usage.total_tokens ∧
    b.telemetry.tokens_prompt = usage.prompt_tokens ∧
    b.telemetry.tokens_completion = usage.completion_tokens ∧
    b.telemetry.estimated_cost_usd =
      pyRound ((usage.prompt_tokens : ℚ) * (0.15 / 1000000) +
        (usage.completion_tokens : ℚ) * (0.60 / 1000000)) 6 ∧
    (usage.total_tokens = usage.prompt_tokens + usage.completion_tokens →
      b.telemetry.tokens_total =
        b.telemetry.tokens_prompt + b.telemetry.tokens_completion) := by
  simp only [generate_brief] at hok
  split at hok
  · exact absurd hok (by simp)
  · split at hok
    · exact absurd hok (by simp)
    · split at hok
      · exact absurd hok (by simp)
      · split at hok
        · exact absurd hok (by simp)
        · split at hok
          · exact absurd hok (by simp)
          · rw [Except.ok.injEq] at hok
            subst hok
            refine ⟨rfl, ?_, rfl, rfl, rfl, ?_, ?_⟩
            · intro hmono
              apply pyRound_nonneg
              have : (0 : ℚ) ≤ endT - startT := by linarith
              positivity
            · show pyRound (((usage.prompt_tokens : ℚ) * 0.15 +
                (usage.completion_tokens : ℚ) * 0.60) / 1000000) 6 =
                pyRound ((usage.prompt_tokens : ℚ) * (0.15 / 1000000) +
                  (usage.completion_tokens : ℚ) * (0.60 / 1000000)) 6
              congr 1
              ring
            · intro hc
              show usage.total_tokens = usage.prompt_tokens + usage.completion_tokens
              exact hc

/-- A well-formed parsed provider response. -/
def okResponse : List (String × JVal) :=
  [("brief", .vstr "A short brief."),
   ("angles", .varr [.istr "a1", .istr "a2", .istr "a3"]),
   ("criteria", .varr [.istr "c1", .istr "c2", .istr "c3"])]

/-- The provider usage report for the concrete C8 run. -/
def okUsage : Usage := ⟨30, 10, 20⟩

/-- The value `generate_brief` returns on `okResponse` with `okUsage`
between wall-clock readings 0 and 1. -/
def okBrief : BriefResult :=
  { brief := .vstr "A short brief."
    angles := [.istr "a1", .istr "a2", .istr "a3"]
    criteria := [.istr "c1", .istr "c2", .istr "c3"]
    telemetry :=
      { latency_ms := pyRound (((1 : ℚ) - 0) * 1000) 2
        tokens_total := 30
        tokens_prompt := 10
        tokens_completion := 20
        estimated_cost_usd := pyRound
          (((okUsage.prompt_tokens : ℚ) * 0.15 +
            (okUsage.completion_tokens : ℚ) * 0.60) / 1000000) 6 } }

/-- Concrete instance of C8 on a stubbed well-formed 3/3-item response
with usage 10 prompt + 20 completion = 30 total tokens. -/
theorem C8_telemetry_witness :
    generate_brief (.success (.parsed okResponse) okUsage) 0 1 = .ok okBrief ∧
    (0 : ℚ) ≤ 1 ∧
    okUsage.total_tokens = okUsage.prompt_tokens + okUsage.completion_tokens ∧
    okBrief.telemetry.latency_ms = pyRound (((1 : ℚ) - 0) * 1000) 2 ∧
    0 ≤ okBrief.telemetry.latency_ms ∧
    okBrief.telemetry.tokens_total = okUsage.total_tokens ∧
    okBrief.telemetry.estimated_cost_usd =
      pyRound ((okUsage.prompt_tokens : ℚ) * (0.15 / 1000000) +
        (okUsage.completion_tokens : ℚ) * (0.60 / 1000000)) 6 ∧
    okBrief.telemetry.tokens_total =
      okBrief.telemetry.tokens_prompt + okBrief.telemetry.tokens_completion :=
  ⟨rfl, zero_le_one, rfl,
    (C8_telemetry okResponse okUsage 0 1 okBrief rfl).1,
    (C8_telemetry okResponse okUsage 0 1 okBrief rfl).2.1 zero_le_one,
    (C8_telemetry okResponse okUsage 0 1 okBrief rfl).2.2.1,
    (C8_telemetry okResponse okUsage 0 1 okBrief rfl).2.2.2.2.2.1,
    (C8_telemetry okResponse okUsage 0 1 okBrief rfl).2.2.2.2.2.2 rfl⟩
